import Mathlib

/-!
Shallow embedding of the `sydney-lgbtq-coloc-scraper` pipeline
(`src/main.py`, class `LGBTQColocScraper`) together with proofs about it.

Python regular expressions used by the scraper are built from literals,
character classes, `?`, a star over a character class, and alternation, so
they are embedded as a small executable regex language `Rx` with a
remainder-set matcher; `re.search` existence is modelled by trying every
start position.  Strings are modelled over their character lists; the
`(?i)` flag and Python `str.lower` are modelled by ASCII case folding
(every character actually occurring in the repository's patterns and data
is ASCII).
-/

/-- Character-class regular expressions: empty word, a single character drawn
from a finite set, concatenation, alternation, and Kleene star restricted to
a character set (the only form of star appearing in the source patterns). -/
inductive Rx where
  | eps
  | cls (cs : List Char)
  | seq (a b : Rx)
  | alt (a b : Rx)
  | starCls (cs : List Char)
deriving DecidableEq, Repr

/-- Literal-string regex, one `cls` per character. -/
def rxLit (s : String) : Rx :=
  s.data.foldr (fun c r => Rx.seq (Rx.cls [c]) r) Rx.eps

/-- Optional regex, Python `?`. -/
def rxOpt (r : Rx) : Rx := Rx.alt r Rx.eps

/-- Remainders of `l` after `starCls cs` consumes zero or more characters of
the class `cs` from the front. -/
def starRem (cs : List Char) : List Char → List (List Char)
  | [] => [[]]
  | c :: t => (c :: t) :: (if cs.contains c then starRem cs t else [])

/-- All suffixes of `l` remaining after some match of `r` against a prefix of
`l`.  `matchRem r l ≠ []` iff `r` matches some prefix of `l`. -/
def matchRem : Rx → List Char → List (List Char)
  | .eps, l => [l]
  | .cls cs, l =>
    match l with
    | [] => []
    | c :: t => if cs.contains c then [t] else []
  | .seq a b, l => (matchRem a l).flatMap (matchRem b)
  | .alt a b, l => matchRem a l ++ matchRem b l
  | .starCls cs, l => starRem cs l

/-- Python `re.search` as a Boolean: does `r` match starting at some
position of `l`? -/
def searchRx (r : Rx) : List Char → Bool
  | [] => !(matchRem r []).isEmpty
  | c :: t => !(matchRem r (c :: t)).isEmpty || searchRx r t

/-- ASCII case folding, the model of Python lower-casing and of the `(?i)`
regex flag on the ASCII-only patterns of the source. -/
def asciiLower (c : Char) : Char :=
  if 'A' ≤ c ∧ c ≤ 'Z' then Char.ofNat (c.toNat + 32) else c

/-- Python `str.lower` (ASCII model). -/
def pyLower (s : String) : String := ⟨s.data.map asciiLower⟩

/-- Characters of Python `\s` (ASCII part). -/
def wsChars : List Char := [' ', '\t', '\n', '\r', Char.ofNat 11, Char.ofNat 12]

/-- Pattern `(?i)lgbtq?\+?` (case handled by folding the text). -/
def rxLgbt : Rx := Rx.seq (rxLit "lgbt") (Rx.seq (rxOpt (Rx.cls ['q'])) (rxOpt (Rx.cls ['+'])))

/-- Pattern `(?i)queer[-\s]?friendly`. -/
def rxQueerFriendly : Rx :=
  Rx.seq (rxLit "queer") (Rx.seq (rxOpt (Rx.cls ('-' :: wsChars))) (rxLit "friendly"))

/-- Pattern `(?i)queer\s*house(hold)?`. -/
def rxQueerHouse : Rx :=
  Rx.seq (rxLit "queer") (Rx.seq (Rx.starCls wsChars)
    (Rx.seq (rxLit "house") (rxOpt (rxLit "hold"))))

/-- Pattern `(?i)gay[-\s]?share`. -/
def rxGayShare : Rx :=
  Rx.seq (rxLit "gay") (Rx.seq (rxOpt (Rx.cls ('-' :: wsChars))) (rxLit "share"))

/-- Pattern `(?i)gay[-\s]?friendly`. -/
def rxGayFriendly : Rx :=
  Rx.seq (rxLit "gay") (Rx.seq (rxOpt (Rx.cls ('-' :: wsChars))) (rxLit "friendly"))

/-- Pattern `(?i)lesbian[-\s]?friendly`. -/
def rxLesbianFriendly : Rx :=
  Rx.seq (rxLit "lesbian") (Rx.seq (rxOpt (Rx.cls ('-' :: wsChars))) (rxLit "friendly"))

/-- Pattern `(?i)trans[-\s]?friendly`. -/
def rxTransFriendly : Rx :=
  Rx.seq (rxLit "trans") (Rx.seq (rxOpt (Rx.cls ('-' :: wsChars))) (rxLit "friendly"))

/-- Pattern `(?i)rainbow\s*(home|house|household)`. -/
def rxRainbow : Rx :=
  Rx.seq (rxLit "rainbow") (Rx.seq (Rx.starCls wsChars)
    (Rx.alt (rxLit "home") (Rx.alt (rxLit "house") (rxLit "household"))))

/-- The fixed topical pattern list `self.lgbtq_patterns`, in source order. -/
def lgbtq_patterns : List Rx :=
  [rxLgbt, rxQueerFriendly, rxQueerHouse, rxGayShare, rxGayFriendly,
   rxLesbianFriendly, rxTransFriendly, rxRainbow]

/-- Case-insensitive search of one pattern in a text. -/
def searchCI (r : Rx) (text : String) : Bool :=
  searchRx r (text.data.map asciiLower)

/-- Topical relevance over an arbitrary pattern list (the source's
`detect_lgbtq_content` body, `any(re.search(p, text) for p in ps)`). -/
def detectWith (ps : List Rx) (text : String) : Bool :=
  ps.any (fun p => searchCI p text)

/-- `LGBTQColocScraper.detect_lgbtq_content`. -/
def detect_lgbtq_content (text : String) : Bool :=
  detectWith lgbtq_patterns text

/-- The fixed allow-list `self.target_suburbs`. -/
def target_suburbs : List String := ["Surry Hills", "Darlinghurst", "Newtown"]

/-- Python `text.replace(",", "")` on the character list. -/
def stripSep (l : List Char) : List Char := l.filter (fun c => c != ',')

/-- Numeric value of a digit string (what Python `int` returns on the
matched group). -/
def digitsVal (l : List Char) : Nat :=
  l.foldl (fun n c => 10 * n + (c.toNat - '0'.toNat)) 0

/-- First match of `re.search(r"(\d{2,4})", ·)`: at the first position where
at least two digits start, greedily take up to four digits. -/
def findRun : List Char → Option (List Char)
  | [] => none
  | c :: t =>
    if 2 ≤ ((c :: t).takeWhile Char.isDigit).length then
      some (((c :: t).takeWhile Char.isDigit).take 4)
    else findRun t

/-- `LGBTQColocScraper._price_to_int`: `None` on falsy text, else the first
2-4 digit run of the comma-stripped text as an integer, `None` if absent. -/
def price_to_int (s : String) : Option Nat :=
  if s = "" then none
  else (findRun (stripSep s.data)).map digitsVal

/-- Python `\w` word character (ASCII model). -/
def isWordChar (c : Char) : Bool := c.isAlphanum || c == '_'

/-- Search for `\b r \b` where every alternative of `r` is a nonempty
literal beginning and ending with a word character (true of both
nationality patterns): the boundary conditions reduce to the preceding
character not being a word character and the first remaining character not
being a word character.  `prevWord` records whether the character before
the current position is a word character (`false` at the string start). -/
def searchWordB (r : Rx) (prevWord : Bool) : List Char → Bool
  | [] => false
  | c :: t =>
    ((!prevWord) && (matchRem r (c :: t)).any (fun rem =>
      match rem with
      | [] => true
      | d :: _ => !isWordChar d))
    || searchWordB r (isWordChar c) t

/-- Pattern `(?i)\b(aussies?|australian[s]?)\b` (inner alternation). -/
def rxAustralian : Rx :=
  Rx.alt (Rx.seq (rxLit "aussie") (rxOpt (Rx.cls ['s'])))
    (Rx.seq (rxLit "australian") (rxOpt (Rx.cls ['s'])))

/-- Pattern `(?i)\b(brazil(ian)?s?|portuguese|portugu[eê]s)\b` (inner
alternation). -/
def rxBrazilian : Rx :=
  Rx.alt (Rx.seq (rxLit "brazil") (Rx.seq (rxOpt (rxLit "ian")) (rxOpt (Rx.cls ['s']))))
    (Rx.alt (rxLit "portuguese") (Rx.seq (rxLit "portugu") (Rx.seq (Rx.cls ['e', 'ê']) (Rx.cls ['s']))))

/-- The fixed dict `self.nationality_patterns`, in insertion order. -/
def nationality_patterns : List (String × Rx) :=
  [("Australian", rxAustralian), ("Brazilian", rxBrazilian)]

/-- `LGBTQColocScraper.extract_nationalities`: labels whose pattern occurs
in the text, in dict insertion order. -/
def extract_nationalities (text : String) : List String :=
  (nationality_patterns.filter
    (fun np => searchWordB np.2 false (text.data.map asciiLower))).map (fun np => np.1)

/-- The `Listing` dataclass of `src/main.py`. -/
structure Listing where
  title : String
  description : String
  url : String
  price_per_week : Option Nat
  suburb : String
  date_posted : String
  source : String
  image_url : Option String
deriving DecidableEq, Repr

/-- The four-key dict passed to `analyze_with_openai` by `run`. -/
structure AdInput where
  title : String
  description : String
  price_per_week : Option Nat
  suburb : String
deriving DecidableEq, Repr

/-- The analysis dict consumed downstream: the JSON schema the service is
asked for, which is also the shape of the fallback dict. -/
structure Analysis where
  summary : String
  lgbtq : Bool
  nationalities : List String
  tags : List String
  score : Int
  reasons : List String
deriving DecidableEq, Repr

/-- Outcome of the one HTTP POST to the analysis service, as observed by
`analyze_with_openai`: a raised transport error, or a response with a
status code and (for status 200) the result of extracting and JSON-parsing
the message content into the expected schema (`none` covering malformed
JSON and a malformed response envelope, both of which raise inside the
`try` block and are caught). -/
inductive ServiceOutcome where
  | netError
  | response (status : Nat) (content : Option Analysis)
deriving DecidableEq, Repr

/-- The value returned from inside the `try` block, when any: the parsed
content of a status-200 response.  Every other outcome falls through to
the fallback. -/
def serviceResult : ServiceOutcome → Option Analysis
  | .netError => none
  | .response s c => if s = 200 then c else none

/-- Python `f"{x}"` on an optional integer (`str(None)` is `"None"`). -/
def pyShowOptNat : Option Nat → String
  | none => "None"
  | some n => toString n

/-- Pre-clamp fallback score: `50 + (25 if lgbtq else 0)`, then `+ 10` when
the suburb is a target suburb. -/
def fallbackPre (l : AdInput) : Int :=
  let base : Int := 50 + (if detect_lgbtq_content (pyLower (l.title ++ " " ++ l.description)) then 25 else 0)
  if l.suburb ∈ target_suburbs then base + 10 else base

/-- The deterministic fallback dict built at the end of
`analyze_with_openai` (`# Fallback simple`). -/
def fallbackAnalysis (l : AdInput) : Analysis :=
  let text := pyLower (l.title ++ " " ++ l.description)
  { summary := "Flatshare in " ++ l.suburb ++ " for $" ++ pyShowOptNat l.price_per_week ++ "/week."
    lgbtq := detect_lgbtq_content text
    nationalities := extract_nationalities text
    tags := []
    score := min 100 (max 0 (fallbackPre l))
    reasons := ["Fallback analysis used"] }

/-- `LGBTQColocScraper.analyze_with_openai`, parameterised by the service
outcome: the parsed content of a successful call, else the fallback. -/
def analyze_with_openai (o : ServiceOutcome) (l : AdInput) : Analysis :=
  match serviceResult o with
  | some a => a
  | none => fallbackAnalysis l

/-- The four fields `run` copies out of a `Listing` for analysis. -/
def toAdInput (l : Listing) : AdInput :=
  { title := l.title, description := l.description
    price_per_week := l.price_per_week, suburb := l.suburb }

/-- Step 2 of `run` (`# 2) Dédup par URL`): `uniq.setdefault(ad.url, ad)`
over an insertion-ordered dict, then `list(uniq.values())`.  `seen` holds
the urls already present in the dict. -/
def dedupeAux (seen : List String) : List Listing → List Listing
  | [] => []
  | a :: t =>
    if a.url ∈ seen then dedupeAux seen t
    else a :: dedupeAux (a.url :: seen) t

/-- Deduplication of the aggregated listings by url, first occurrence wins. -/
def dedupe (l : List Listing) : List Listing := dedupeAux [] l

/-- `LGBTQColocScraper.create_notion_page`, with the external Notion
database modelled as the list of urls of its pages: the method builds the
page payload and POSTs it unconditionally; on a 200 response (`apiOk`) the
page is created and `True` returned, on any other status or exception
`False`.  No query of the store precedes the creation. -/
def create_notion_page (store : List String) (l : Listing) (apiOk : Bool) :
    List String × Bool :=
  if apiOk then (store ++ [l.url], true) else (store, false)

/-- Step 3 of `run` (`# 3) Analyse + push Notion`): for each listing,
analyze, push to Notion, and on success append the payload together with
the analysis score to `processed`.  `os i` is the analysis-service outcome
and `nk i` the Notion API outcome for the listing at loop index `i`. -/
def processListings (os : Nat → ServiceOutcome) (nk : Nat → Bool) :
    List Listing → List String → Nat → List String × List (Listing × Int)
  | [], store, _ => (store, [])
  | ad :: rest, store, i =>
    let analysis := analyze_with_openai (os i) (toAdInput ad)
    let step := create_notion_page store ad (nk i)
    let tail := processListings os nk rest step.1 (i + 1)
    (tail.1, (if step.2 then [(ad, analysis.score)] else []) ++ tail.2)

/-- One body row of `send_telegram_notification`'s message. -/
def telegramEntry (ad : Listing × Int) : String :=
  "🏠 " ++ ad.1.title.take 60 ++ "\n" ++
  "📍 " ++ ad.1.suburb ++ " — $" ++ pyShowOptNat ad.1.price_per_week ++ "/week\n" ++
  "🔗 " ++ ad.1.url ++ "\n\n"

/-- The Telegram message text: a header with the batch size, then the
first five records. -/
def telegramMessage (batch : List (Listing × Int)) : String :=
  (batch.take 5).foldl (fun m ad => m ++ telegramEntry ad)
    ("🏳️‍🌈 " ++ toString batch.length ++ " new LGBTQ+ flatshare ads!\n\n")

/-- One `<tr>` of `build_html_email`, with Python truthiness on the
optional image url and price deciding whether those fragments appear. -/
def emailRow (ad : Listing × Int) : String :=
  let img :=
    match ad.1.image_url with
    | some u => if u = "" then "" else
        "<img src=\"" ++ u ++ "\" alt=\"\" width=\"120\" style=\"border-radius:8px;display:block;\">"
    | none => ""
  let price :=
    match ad.1.price_per_week with
    | some n => if n = 0 then "" else "$" ++ toString n ++ "/week"
    | none => ""
  "\n<tr>\n  <td style=\"padding:12px;border-bottom:1px solid #eee;vertical-align:top;\">\n" ++
  "    <table role=\"presentation\" cellpadding=\"0\" cellspacing=\"0\" border=\"0\">\n      <tr>\n" ++
  "        <td style=\"padding-right:12px;\">" ++ img ++ "</td>\n        <td>\n" ++
  "          <a href=\"" ++ ad.1.url ++ "\" style=\"font-size:16px;font-weight:600;color:#0b5cff;text-decoration:none;\">\n" ++
  "            " ++ ad.1.title ++ "\n          </a>\n" ++
  "          <div style=\"font-size:13px;color:#444;margin:6px 0;\">" ++ ad.1.suburb ++ " · " ++ price ++ " · " ++ ad.1.source ++ "</div>\n" ++
  "          <div style=\"font-size:13px;color:#666;line-height:1.4;\">" ++ ad.1.description.take 220 ++ "…</div>\n" ++
  "        </td>\n      </tr>\n    </table>\n  </td>\n</tr>\n"

/-- `LGBTQColocScraper.build_html_email`: the fixed HTML document around
the concatenated rows. -/
def build_html_email (batch : List (Listing × Int)) : String :=
  "\n<!doctype html>\n<html>\n<head>\n  <meta charset=\"utf-8\">\n" ++
  "  <title>LGBTQ+ Sydney — New Listings</title>\n</head>\n" ++
  "<body style=\"margin:0;padding:0;background:#f6f8fb;\">\n" ++
  "  <table role=\"presentation\" cellpadding=\"0\" cellspacing=\"0\" border=\"0\" width=\"100%\">\n" ++
  "    <tr>\n      <td align=\"center\" style=\"padding:24px;\">\n" ++
  "        <table role=\"presentation\" cellpadding=\"0\" cellspacing=\"0\" border=\"0\" width=\"640\" style=\"background:#fff;border-radius:12px;box-shadow:0 2px 8px rgba(0,0,0,.08);overflow:hidden;\">\n" ++
  "          <tr>\n            <td style=\"padding:20px 24px;background:#0b5cff;color:#fff;font-size:18px;font-weight:700;\">\n" ++
  "              🏳️‍🌈 LGBTQ+ Sydney · New Listings\n            </td>\n          </tr>\n          " ++
  String.join (batch.map emailRow) ++
  "\n          <tr>\n            <td style=\"padding:14px 24px;color:#777;font-size:12px;\">\n" ++
  "              You receive this recap because you enabled alerts. Change frequency in GitHub/Notion.\n" ++
  "            </td>\n          </tr>\n        </table>\n      </td>\n    </tr>\n  </table>\n</body>\n</html>\n"

/-- `LGBTQColocScraper.scrape_sample_listings`, with the random weekly
price and the run date as parameters. -/
def scrape_sample_listings (p : Nat) (date : String) : List Listing :=
  [{ title := "Queer-friendly ensuite in Surry Hills"
     description := "Spacious room in a welcoming LGBTQ+ household, near Oxford Street. Bills included, fully furnished."
     url := "https://flatmates.com.au/listing/12345"
     price_per_week := some p
     suburb := "Surry Hills"
     date_posted := date
     source := "Flatmates"
     image_url := some "https://images.unsplash.com/photo-1522708323590-d24dbb6b0267?w=800" }]

/-- Observable final state of one `run`. -/
structure RunResult where
  usedSample : Bool
  unique : List Listing
  store : List String
  processed : List (Listing × Int)
  telegram : Option String
  email : Option String
deriving DecidableEq, Repr

/-- Stages 2-5 of `run`, from the aggregated listing sequence: dedupe,
per-listing analyze + Notion push, Telegram notification (sent only when
the batch is nonempty and a bot token is configured), HTML digest of the
first twelve records (generated only when the batch is nonempty). -/
def runCore (usedSample : Bool) (ls : List Listing) (os : Nat → ServiceOutcome)
    (nk : Nat → Bool) (store : List String) (tok : Bool) : RunResult :=
  let listings := dedupe ls
  let step := processListings os nk listings store 0
  { usedSample
    unique := listings
    store := step.1
    processed := step.2
    telegram := if step.2 ≠ [] ∧ tok then some (telegramMessage step.2) else none
    email := if step.2 ≠ [] then some (build_html_email (step.2.take 12)) else none }

/-- Stage 1 of `run`: each adapter contributes its list (an adapter that
raised or returned nothing contributes `[]`), contributions are
concatenated in adapter order. -/
def collectAll : List (List Listing) → List Listing
  | [] => []
  | r :: rs => r ++ collectAll rs

/-- `LGBTQColocScraper.run`: aggregate the adapter outputs, substitute the
built-in sample when the aggregate is empty, then run stages 2-5. -/
def run (rs : List (List Listing)) (p : Nat) (date : String)
    (os : Nat → ServiceOutcome) (nk : Nat → Bool) (store : List String)
    (tok : Bool) : RunResult :=
  let all := collectAll rs
  if all.isEmpty then runCore true (scrape_sample_listings p date) os nk store tok
  else runCore false all os nk store tok

/-- Does the text contain two adjacent digits anywhere (the condition for
`\d{2,4}` to match)? -/
def hasAdj : List Char → Bool
  | a :: b :: t => (a.isDigit && b.isDigit) || hasAdj (b :: t)
  | _ => false

/-- Two adjacent digits at position `i`. -/
def adjTwo (l : List Char) (i : Nat) : Bool :=
  match l[i]?, l[i + 1]? with
  | some a, some b => a.isDigit && b.isDigit
  | _, _ => false

/-- The concrete listing of the spec scenario for C2: description contains
"queer-friendly", suburb is "Newtown". -/
def exNewtown : AdInput :=
  { title := "Room available"
    description := "Sunny room in a queer-friendly household near the park."
    price_per_week := some 420
    suburb := "Newtown" }

/-- An out-of-range analysis as the service could return it: the client
parses the JSON content and returns it without any clamping. -/
def badAnalysis : Analysis :=
  { summary := "great", lgbtq := true, nationalities := [], tags := []
    score := 150, reasons := ["overenthusiastic"] }

/-- The single built-in sample listing at a fixed price and date, reused as
a concrete input below. -/
def exSample : Listing :=
  { title := "Queer-friendly ensuite in Surry Hills"
    description := "Spacious room in a welcoming LGBTQ+ household, near Oxford Street. Bills included, fully furnished."
    url := "https://flatmates.com.au/listing/12345"
    price_per_week := some 400
    suburb := "Surry Hills"
    date_posted := "2026-10-12"
    source := "Flatmates"
    image_url := some "https://images.unsplash.com/photo-1522708323590-d24dbb6b0267?w=800" }

/-- A listing that is neither topically relevant nor in a target suburb. -/
def exIrrelevant : Listing :=
  { title := "Big room"
    description := "Large sunny room near the beach."
    url := "https://example.com/bondi1"
    price_per_week := some 300
    suburb := "Bondi"
    date_posted := "2026-10-12"
    source := "Gumtree"
    image_url := none }

/-! Helper lemmas about deduplication. -/

/-- Deduplication only drops elements: the result is a sublist of the input,
so the relative order of retained records is their input order. -/
theorem dedupeAux_sublist (l : List Listing) : ∀ seen, List.Sublist (dedupeAux seen l) l := by
  induction l with
  | nil => intro seen; simp [dedupeAux]
  | cons a t ih =>
    intro seen
    rw [dedupeAux]
    by_cases h : a.url ∈ seen
    · rw [if_pos h]; exact List.Sublist.cons a (ih seen)
    · rw [if_neg h]; exact List.Sublist.cons₂ a (ih (a.url :: seen))

/-- A url appears among the deduplicated records iff it appears in the input
and was not already seen. -/
theorem mem_url_dedupeAux (u : String) (l : List Listing) :
    ∀ seen, u ∈ (dedupeAux seen l).map Listing.url ↔
      u ∉ seen ∧ u ∈ l.map Listing.url := by
  induction l with
  | nil => intro seen; simp [dedupeAux]
  | cons a t ih =>
    intro seen
    by_cases h : a.url ∈ seen
    · rw [dedupeAux, if_pos h, ih]
      simp only [List.map_cons, List.mem_cons]
      constructor
      · rintro ⟨h1, h2⟩
        exact ⟨h1, Or.inr h2⟩
      · rintro ⟨h1, he | hm⟩
        · exact absurd (he ▸ h) h1
        · exact ⟨h1, hm⟩
    · rw [dedupeAux, if_neg h]
      simp only [List.map_cons, List.mem_cons]
      rw [ih]
      constructor
      · rintro (he | ⟨h1, h2⟩)
        · exact ⟨he ▸ h, Or.inl he⟩
        · exact ⟨fun hs => h1 (List.mem_cons_of_mem _ hs), Or.inr h2⟩
      · rintro ⟨h1, he | hm⟩
        · exact Or.inl he
        · by_cases hu : u = a.url
          · exact Or.inl hu
          · refine Or.inr ⟨?_, hm⟩
            intro hc
            rcases List.mem_cons.mp hc with hc | hc
            · exact hu hc
            · exact h1 hc

/-- The urls of the deduplicated records are pairwise distinct. -/
theorem nodup_url_dedupeAux (l : List Listing) :
    ∀ seen, ((dedupeAux seen l).map Listing.url).Nodup := by
  induction l with
  | nil => intro seen; simp [dedupeAux]
  | cons a t ih =>
    intro seen
    by_cases h : a.url ∈ seen
    · rw [dedupeAux, if_pos h]; exact ih seen
    · rw [dedupeAux, if_neg h]
      simp only [List.map_cons, List.nodup_cons]
      refine ⟨fun hmem => ?_, ih _⟩
      exact ((mem_url_dedupeAux a.url t _).mp hmem).1 (List.mem_cons_self _ _)

/-- Every retained record is the first input record carrying its url. -/
theorem find?_dedupeAux (l : List Listing) :
    ∀ seen x, x ∈ dedupeAux seen l →
      x.url ∉ seen ∧ l.find? (fun y => y.url == x.url) = some x := by
  induction l with
  | nil => intro seen x hx; simp [dedupeAux] at hx
  | cons a t ih =>
    intro seen x hx
    by_cases h : a.url ∈ seen
    · rw [dedupeAux, if_pos h] at hx
      obtain ⟨h1, h2⟩ := ih seen x hx
      refine ⟨h1, ?_⟩
      rw [List.find?_cons_of_neg, h2]
      simp only [beq_iff_eq]
      intro he
      exact h1 (he ▸ h)
    · rw [dedupeAux, if_neg h] at hx
      rcases List.mem_cons.mp hx with rfl | hx2
      · refine ⟨h, ?_⟩
        rw [List.find?_cons_of_pos]
        simp
      · obtain ⟨h1, h2⟩ := ih (a.url :: seen) x hx2
        have hne : a.url ≠ x.url := fun he => h1 (he ▸ List.mem_cons_self _ _)
        refine ⟨fun hs => h1 (List.mem_cons_of_mem _ hs), ?_⟩
        rw [List.find?_cons_of_neg, h2]
        simp only [beq_iff_eq]
        exact hne

/-- Claim C1: deduplication returns exactly one record per distinct input
url (the retained urls are pairwise distinct and are exactly the input
urls); each retained record equals the first input occurrence with its
url; and the retained records keep their relative input order (the output
is a sublist of the input). -/
theorem spec_C1_dedupe_first_wins (l : List Listing) :
    ((dedupe l).map Listing.url).Nodup ∧
    (∀ u, u ∈ (dedupe l).map Listing.url ↔ u ∈ l.map Listing.url) ∧
    (∀ x, x ∈ dedupe l → l.find? (fun y => y.url == x.url) = some x) ∧
    List.Sublist (dedupe l) l := by
  refine ⟨nodup_url_dedupeAux l [], fun u => ?_,
    fun x hx => (find?_dedupeAux l [] x hx).2, dedupeAux_sublist l []⟩
  rw [dedupe, mem_url_dedupeAux]
  simp

/-! Claims about the relevance classifier and the analysis client. -/

/-- Claim C4: the classifier returns `true` iff the text case-insensitively
matches at least one pattern of the fixed list, and the answer is invariant
under any reordering of the pattern list. -/
theorem spec_C4_relevance_patterns (t : String) (ps : List Rx)
    (h : ps.Perm lgbtq_patterns) :
    (detect_lgbtq_content t = true ↔ ∃ p ∈ lgbtq_patterns, searchCI p t = true) ∧
    detectWith ps t = detect_lgbtq_content t := by
  constructor
  · rw [detect_lgbtq_content, detectWith, List.any_eq_true]
  · have hiff : detectWith ps t = true ↔ detectWith lgbtq_patterns t = true := by
      simp only [detectWith, List.any_eq_true]
      constructor
      · rintro ⟨p, hp, hs⟩
        exact ⟨p, h.mem_iff.mp hp, hs⟩
      · rintro ⟨p, hp, hs⟩
        exact ⟨p, h.mem_iff.mpr hp, hs⟩
    rw [detect_lgbtq_content]
    cases h1 : detectWith ps t <;> cases h2 : detectWith lgbtq_patterns t <;>
      simp_all

/-- Witness for C4 at a concrete text and the reversed pattern list. -/
theorem spec_C4_witness :
    (lgbtq_patterns.reverse).Perm lgbtq_patterns ∧
    detectWith lgbtq_patterns.reverse "QUEER-FRIENDLY flat" =
      detect_lgbtq_content "QUEER-FRIENDLY flat" ∧
    detect_lgbtq_content "QUEER-FRIENDLY flat" = true := by
  refine ⟨List.reverse_perm _, ?_, by decide⟩
  exact (spec_C4_relevance_patterns "QUEER-FRIENDLY flat" _ (List.reverse_perm _)).2

/-- The two-step fallback score of the source equals the one-line clamp
formula of the specification. -/
theorem fallbackPre_eq (l : AdInput) :
    fallbackPre l =
      50 + (if detect_lgbtq_content (pyLower (l.title ++ " " ++ l.description)) then (25 : Int) else 0)
        + (if l.suburb ∈ target_suburbs then (10 : Int) else 0) := by
  by_cases h2 : l.suburb ∈ target_suburbs <;> simp [fallbackPre, h2]

/-- On any failed service call the analysis is the deterministic fallback. -/
theorem analyze_eq_fallback (l : AdInput) (o : ServiceOutcome)
    (h : serviceResult o = none) :
    analyze_with_openai o l = fallbackAnalysis l := by
  rw [analyze_with_openai, h]

/-- Claim C2: whenever the service call fails, the fallback score is
`clamp(50 + (25 if the title+description text topically matches else 0)
+ (10 if the suburb is a target suburb else 0), 0, 100)`, the relevance
flag is the classifier verdict, and the reasons carry the fixed fallback
marker. -/
theorem spec_C2_fallback_score_formula (l : AdInput) (o : ServiceOutcome)
    (h : serviceResult o = none) :
    (analyze_with_openai o l).score =
      min 100 (max 0
        (50 + (if detect_lgbtq_content (pyLower (l.title ++ " " ++ l.description)) then (25 : Int) else 0)
          + (if l.suburb ∈ target_suburbs then (10 : Int) else 0))) ∧
    (analyze_with_openai o l).lgbtq =
      detect_lgbtq_content (pyLower (l.title ++ " " ++ l.description)) ∧
    "Fallback analysis used" ∈ (analyze_with_openai o l).reasons := by
  rw [analyze_eq_fallback l o h]
  refine ⟨?_, rfl, by simp [fallbackAnalysis]⟩
  show min 100 (max 0 (fallbackPre l)) = _
  rw [fallbackPre_eq]

/-- Witness for C2: the spec scenario itself (HTTP 500, "queer-friendly"
in the description, suburb "Newtown") yields relevance, score 85, and the
fallback marker. -/
theorem spec_C2_witness :
    serviceResult (ServiceOutcome.response 500 none) = none ∧
    (analyze_with_openai (ServiceOutcome.response 500 none) exNewtown).lgbtq = true ∧
    (analyze_with_openai (ServiceOutcome.response 500 none) exNewtown).score = 85 ∧
    "Fallback analysis used" ∈
      (analyze_with_openai (ServiceOutcome.response 500 none) exNewtown).reasons := by
  have h := spec_C2_fallback_score_formula exNewtown (ServiceOutcome.response 500 none)
    (by decide)
  refine ⟨by decide, ?_, ?_, h.2.2⟩
  · rw [h.2.1]; decide
  · rw [h.1]; decide

/-- Counterexample to C3 as stated: a successful service response carrying
score 150 is returned unmodified, so the produced score is not in [0,100]. -/
theorem spec_C3_counterexample :
    (analyze_with_openai (ServiceOutcome.response 200 (some badAnalysis)) exNewtown).score
      = 150 ∧
    ¬ ((analyze_with_openai (ServiceOutcome.response 200 (some badAnalysis)) exNewtown).score
      ≤ 100) := by
  decide

/-- Claim C3 amended: the fallback-path score always lies in [0,100]; the
service path returns the parsed analysis unmodified, so its score is only
in range when the service's own value is. -/
theorem spec_C3_score_paths (l : AdInput) (o : ServiceOutcome) :
    (serviceResult o = none →
      0 ≤ (analyze_with_openai o l).score ∧ (analyze_with_openai o l).score ≤ 100) ∧
    (∀ a, serviceResult o = some a → analyze_with_openai o l = a) := by
  constructor
  · intro h
    rw [analyze_eq_fallback l o h]
    show 0 ≤ min 100 (max 0 (fallbackPre l)) ∧ min 100 (max 0 (fallbackPre l)) ≤ 100
    constructor
    · exact le_min (by norm_num) (le_max_left 0 _)
    · exact min_le_left _ _
  · intro a h
    rw [analyze_with_openai, h]

/-- Witness for the amended C3 at a failed call. -/
theorem spec_C3_witness :
    0 ≤ (analyze_with_openai ServiceOutcome.netError exNewtown).score ∧
    (analyze_with_openai ServiceOutcome.netError exNewtown).score ≤ 100 :=
  (spec_C3_score_paths exNewtown ServiceOutcome.netError).1 (by decide)

/-- Claim C7: on every failure outcome — raised transport error, non-200
status, or unparseable status-200 content — the analysis operation returns
the deterministic fallback (it never propagates the failure), whose `tags`
are empty and whose `reasons` contain the fixed fallback marker. -/
theorem spec_C7_failure_fallback (l : AdInput) (o : ServiceOutcome)
    (h : serviceResult o = none) :
    analyze_with_openai o l = fallbackAnalysis l ∧
    (analyze_with_openai o l).tags = [] ∧
    "Fallback analysis used" ∈ (analyze_with_openai o l).reasons ∧
    serviceResult ServiceOutcome.netError = none ∧
    (∀ s c, s ≠ 200 → serviceResult (ServiceOutcome.response s c) = none) ∧
    serviceResult (ServiceOutcome.response 200 none) = none := by
  have he := analyze_eq_fallback l o h
  refine ⟨he, by rw [he]; rfl, by rw [he]; simp [fallbackAnalysis], rfl, ?_, by decide⟩
  intro s c hs
  simp [serviceResult, hs]

/-- Witness for C7 at a concrete transport error. -/
theorem spec_C7_witness :
    analyze_with_openai ServiceOutcome.netError exNewtown = fallbackAnalysis exNewtown ∧
    (analyze_with_openai ServiceOutcome.netError exNewtown).tags = [] ∧
    "Fallback analysis used" ∈
      (analyze_with_openai ServiceOutcome.netError exNewtown).reasons := by
  have h := spec_C7_failure_fallback exNewtown ServiceOutcome.netError (by decide)
  exact ⟨h.1, h.2.1, h.2.2.1⟩

/-- Claim C10: the pre-clamp fallback score is one of 50, 60, 75, 85; in
particular it is at least 50, the lower clamp bound is never active
(`max 0` is the identity on it), and the clamped score equals it. -/
theorem spec_C10_fallback_pre_score (l : AdInput) :
    (fallbackPre l = 50 ∨ fallbackPre l = 60 ∨ fallbackPre l = 75 ∨ fallbackPre l = 85) ∧
    max 0 (fallbackPre l) = fallbackPre l ∧
    (fallbackAnalysis l).score = fallbackPre l ∧
    50 ≤ (fallbackAnalysis l).score := by
  have hcases :
      fallbackPre l = 50 ∨ fallbackPre l = 60 ∨ fallbackPre l = 75 ∨ fallbackPre l = 85 := by
    rw [fallbackPre_eq]
    by_cases h1 : detect_lgbtq_content (pyLower (l.title ++ " " ++ l.description)) <;>
      by_cases h2 : l.suburb ∈ target_suburbs <;> simp [h1, h2]
  have hscore : (fallbackAnalysis l).score = fallbackPre l := by
    show min 100 (max 0 (fallbackPre l)) = fallbackPre l
    rcases hcases with h | h | h | h <;> rw [h] <;> decide
  refine ⟨hcases, ?_, hscore, ?_⟩
  · rcases hcases with h | h | h | h <;> rw [h] <;> decide
  · rw [hscore]
    rcases hcases with h | h | h | h <;> rw [h] <;> decide

/-! Claims about the per-listing persistence loop of `run`. -/

/-- Counterexample to C5 as stated: with the persisted store already
containing the listing's url, the loop still creates a new record (the
store is never queried, nothing is skipped), leaving the url twice in the
store. -/
theorem spec_C5_counterexample :
    (processListings (fun _ => ServiceOutcome.netError) (fun _ => true)
        [exSample] [exSample.url] 0).1 = [exSample.url, exSample.url] ∧
    (processListings (fun _ => ServiceOutcome.netError) (fun _ => true)
        [exSample] [exSample.url] 0).2 ≠ [] := by
  decide

/-- Claim C5 amended: no existence query precedes creation — even when a
record with the same url already exists in the store, `create_notion_page`
attempts the creation and, on API success, appends the url again; url
uniqueness is guaranteed only within a run, by deduplication. -/
theorem spec_C5_no_existence_check (store : List String) (l : Listing)
    (_h : l.url ∈ store) :
    (create_notion_page store l true).2 = true ∧
    (create_notion_page store l true).1 = store ++ [l.url] ∧
    ∀ ls : List Listing, ((dedupe ls).map Listing.url).Nodup :=
  ⟨rfl, rfl, fun ls => nodup_url_dedupeAux ls []⟩

/-- Witness for the amended C5 at a concrete duplicate url. -/
theorem spec_C5_witness :
    exSample.url ∈ [exSample.url] ∧
    (create_notion_page [exSample.url] exSample true).1 = [exSample.url, exSample.url] := by
  have h := spec_C5_no_existence_check [exSample.url] exSample (by decide)
  exact ⟨by decide, h.2.1⟩

/-- Counterexample to C6 as stated: a listing classified not relevant whose
suburb is outside the target list is still persisted and still enters the
output batch. -/
theorem spec_C6_counterexample :
    (fallbackAnalysis (toAdInput exIrrelevant)).lgbtq = false ∧
    exIrrelevant.suburb ∉ target_suburbs ∧
    (processListings (fun _ => ServiceOutcome.netError) (fun _ => true)
        [exIrrelevant] [] 0).2 = [(exIrrelevant, 50)] ∧
    (processListings (fun _ => ServiceOutcome.netError) (fun _ => true)
        [exIrrelevant] [] 0).1 = [exIrrelevant.url] := by
  decide

/-- Claim C6 amended: the per-listing loop applies no relevance or suburb
filter at all — the batch consists of exactly the listings whose store
push succeeded, each paired with its analysis score, and the store gains
exactly their urls, independently of any classification. -/
theorem spec_C6_no_relevance_filter (os : Nat → ServiceOutcome) (nk : Nat → Bool)
    (ls : List Listing) : ∀ (store : List String) (i : Nat),
    (processListings os nk ls store i).2 =
      ((ls.enumFrom i).filter (fun x => nk x.1)).map
        (fun x => (x.2, (analyze_with_openai (os x.1) (toAdInput x.2)).score)) ∧
    (processListings os nk ls store i).1 =
      store ++ ((ls.enumFrom i).filter (fun x => nk x.1)).map (fun x => x.2.url) := by
  induction ls with
  | nil => intro store i; simp [processListings, List.enumFrom]
  | cons a t ih =>
    intro store i
    cases hnk : nk i
    · have h := ih store (i + 1)
      simp [processListings, create_notion_page, hnk, List.enumFrom, List.filter_cons,
        h.1, h.2]
    · have h := ih (store ++ [a.url]) (i + 1)
      simp [processListings, create_notion_page, hnk, List.enumFrom, List.filter_cons,
        h.1, h.2, List.append_assoc]

/-! Claim about the price extractor. -/

/-- A digit run of length at least two starts at the head iff the first two
characters are digits. -/
theorem two_le_takeWhile_iff (c : Char) (t : List Char) :
    2 ≤ ((c :: t).takeWhile Char.isDigit).length ↔
      c.isDigit = true ∧ ∃ d t2, t = d :: t2 ∧ d.isDigit = true := by
  constructor
  · intro h
    cases hc : c.isDigit
    · rw [List.takeWhile_cons] at h
      simp [hc] at h
    · refine ⟨rfl, ?_⟩
      cases t with
      | nil => rw [List.takeWhile_cons] at h; simp [hc] at h
      | cons d t2 =>
        cases hd : d.isDigit
        · rw [List.takeWhile_cons, List.takeWhile_cons] at h
          simp [hc, hd] at h
        · exact ⟨d, t2, rfl, hd⟩
  · rintro ⟨hc, d, t2, rfl, hd⟩
    rw [List.takeWhile_cons, List.takeWhile_cons]
    simp [hc, hd]

/-- `\d{2,4}` fails to match anywhere iff no two adjacent digits occur. -/
theorem findRun_eq_none_iff (l : List Char) : findRun l = none ↔ hasAdj l = false := by
  induction l with
  | nil => simp [findRun, hasAdj]
  | cons c t ih =>
    rw [findRun]
    by_cases h2 : 2 ≤ ((c :: t).takeWhile Char.isDigit).length
    · rw [if_pos h2]
      obtain ⟨hc, d, t2, ht, hd⟩ := (two_le_takeWhile_iff c t).mp h2
      subst ht
      simp [hasAdj, hc, hd]
    · rw [if_neg h2, ih]
      cases t with
      | nil => simp [hasAdj]
      | cons d t2 =>
        have hnd : (c.isDigit && d.isDigit) = false := by
          by_cases hc : c.isDigit = true
          · by_cases hd : d.isDigit = true
            · exact absurd ((two_le_takeWhile_iff _ _).mpr ⟨hc, d, t2, rfl, hd⟩) h2
            · simp [Bool.eq_false_iff.mpr hd]
          · simp [Bool.eq_false_iff.mpr hc]
        simp [hasAdj, hnd]

/-- The matched group is taken at the first position where two adjacent
digits start, greedily up to four digits. -/
theorem findRun_first (l : List Char) : ∀ ds, findRun l = some ds →
    ∃ i, adjTwo l i = true ∧ (∀ j, j < i → adjTwo l j = false) ∧
      ds = ((l.drop i).takeWhile Char.isDigit).take 4 := by
  induction l with
  | nil => intro ds h; simp [findRun] at h
  | cons c t ih =>
    intro ds h
    rw [findRun] at h
    by_cases h2 : 2 ≤ ((c :: t).takeWhile Char.isDigit).length
    · rw [if_pos h2] at h
      obtain ⟨hc, d, t2, ht, hd⟩ := (two_le_takeWhile_iff c t).mp h2
      refine ⟨0, ?_, fun j hj => absurd hj (Nat.not_lt_zero j), ?_⟩
      · subst ht
        simp [adjTwo, hc, hd]
      · rw [List.drop_zero]
        exact (Option.some.inj h).symm
    · rw [if_neg h2] at h
      obtain ⟨i, hi1, hi2, hi3⟩ := ih ds h
      refine ⟨i + 1, ?_, ?_, ?_⟩
      · simpa [adjTwo, List.getElem?_cons_succ] using hi1
      · intro j hj
        cases j with
        | zero =>
          cases t with
          | nil => simp [adjTwo]
          | cons d t2 =>
            by_cases hc : c.isDigit = true
            · by_cases hd : d.isDigit = true
              · exact absurd ((two_le_takeWhile_iff _ _).mpr ⟨hc, d, t2, rfl, hd⟩) h2
              · simp [adjTwo, Bool.eq_false_iff.mpr hd]
            · simp [adjTwo, Bool.eq_false_iff.mpr hc]
        | succ j2 =>
          have h3 := hi2 j2 (Nat.lt_of_succ_lt_succ hj)
          simpa [adjTwo, List.getElem?_cons_succ] using h3
      · rw [hi3, List.drop_succ_cons]

/-- Claim C8: the price extractor yields 1250 on `"$1,250/week"` and no
value (not zero) on `"Ask"`; in general it yields no value exactly when
the comma-stripped text is empty or contains no two adjacent digits, and
when it yields a value, that value is the integer reading of the digit
run of length 2-4 taken greedily at the first position where two adjacent
digits occur. -/
theorem spec_C8_price_extractor :
    price_to_int "$1,250/week" = some 1250 ∧
    price_to_int "Ask" = none ∧
    (∀ s : String, price_to_int s = none ↔
      (s = "" ∨ hasAdj (stripSep s.data) = false)) ∧
    (∀ s n, price_to_int s = some n →
      ∃ i, adjTwo (stripSep s.data) i = true ∧
        (∀ j, j < i → adjTwo (stripSep s.data) j = false) ∧
        n = digitsVal ((((stripSep s.data).drop i).takeWhile Char.isDigit).take 4)) := by
  refine ⟨by decide, by decide, ?_, ?_⟩
  · intro s
    by_cases hs : s = ""
    · simp [price_to_int, hs]
    · rw [price_to_int, if_neg hs]
      constructor
      · intro h
        cases hf : findRun (stripSep s.data) with
        | none => exact Or.inr ((findRun_eq_none_iff _).mp hf)
        | some ds => rw [hf] at h; simp at h
      · rintro (h | h)
        · exact absurd h hs
        · rw [(findRun_eq_none_iff _).mpr h]
          rfl
  · intro s n h
    rw [price_to_int] at h
    by_cases hs : s = ""
    · rw [if_pos hs] at h
      simp at h
    · rw [if_neg hs] at h
      cases hf : findRun (stripSep s.data) with
      | none => rw [hf] at h; simp at h
      | some ds =>
        rw [hf] at h
        simp only [Option.map_some'] at h
        obtain ⟨i, h1, h2, h3⟩ := findRun_first _ ds hf
        exact ⟨i, h1, h2, by rw [← Option.some.inj h, h3]⟩

/-- Witness for C8 applying the first-run characterization at the concrete
spec example. -/
theorem spec_C8_witness :
    ∃ i, adjTwo (stripSep "$1,250/week".data) i = true ∧
      (∀ j, j < i → adjTwo (stripSep "$1,250/week".data) j = false) ∧
      1250 = digitsVal ((((stripSep "$1,250/week".data).drop i).takeWhile Char.isDigit).take 4) :=
  spec_C8_price_extractor.2.2.2 "$1,250/week" 1250 (by decide)

/-! Claim about the empty-aggregate sample fallback. -/

/-- If every adapter contributed nothing, the aggregate is empty. -/
theorem collectAll_eq_nil (rs : List (List Listing)) (h : ∀ r ∈ rs, r = []) :
    collectAll rs = [] := by
  induction rs with
  | nil => rfl
  | cons r rs ih =>
    rw [collectAll, h r (List.mem_cons_self r rs),
      ih (fun x hx => h x (List.mem_cons_of_mem r hx))]
    rfl

/-- Claim C9: when every adapter yields an empty sequence, `run`
substitutes the built-in sample listing set as the input of
deduplication and the remaining stages (analysis, persistence, Telegram
notification, HTML digest) are exactly the stages run on that sample set,
with the sample-fallback flag raised; the whole pipeline is a total
function, so it reaches the notify/digest stage. -/
theorem spec_C9_sample_fallback (rs : List (List Listing)) (p : Nat) (date : String)
    (os : Nat → ServiceOutcome) (nk : Nat → Bool) (store : List String) (tok : Bool)
    (h : ∀ r ∈ rs, r = []) :
    run rs p date os nk store tok =
      runCore true (scrape_sample_listings p date) os nk store tok ∧
    (run rs p date os nk store tok).usedSample = true ∧
    (run rs p date os nk store tok).unique = dedupe (scrape_sample_listings p date) := by
  have hc : collectAll rs = [] := collectAll_eq_nil rs h
  have he : run rs p date os nk store tok =
      runCore true (scrape_sample_listings p date) os nk store tok := by
    rw [run, hc]
    rfl
  exact ⟨he, by rw [he]; rfl, by rw [he]; rfl⟩

/-- Witness for C9: five empty adapter outputs; the pipeline uses the
sample, and with an all-success store and a configured bot token both the
Telegram notification and the HTML digest are produced. -/
theorem spec_C9_witness :
    (run [[], [], [], [], []] 400 "2026-10-12" (fun _ => ServiceOutcome.netError)
        (fun _ => true) [] true).usedSample = true ∧
    (run [[], [], [], [], []] 400 "2026-10-12" (fun _ => ServiceOutcome.netError)
        (fun _ => true) [] true).telegram.isSome = true ∧
    (run [[], [], [], [], []] 400 "2026-10-12" (fun _ => ServiceOutcome.netError)
        (fun _ => true) [] true).email.isSome = true := by
  have h := spec_C9_sample_fallback [[], [], [], [], []] 400 "2026-10-12"
    (fun _ => ServiceOutcome.netError) (fun _ => true) [] true
    (by intro r hr; simp at hr; exact hr)
  refine ⟨h.2.1, ?_, ?_⟩
  · rw [h.1]; decide
  · rw [h.1]; decide

/-- Witness for C1 on the spec scenario: urls A, B, then A again with a
different title — the record retained for url A is the first occurrence. -/
theorem spec_C1_witness :
    [exSample, exIrrelevant, { exSample with title := "Duplicate" }].find?
      (fun y => y.url == exSample.url) = some exSample := by
  have h := spec_C1_dedupe_first_wins
    [exSample, exIrrelevant, { exSample with title := "Duplicate" }]
  exact h.2.2.1 exSample (by decide)
